import Mathlib

/-!
Shallow embedding of the geometric core of the CodingChallenge repository
(Problem1: grid + circle rasterizer + bounding circles, Problem2: Pratt
circle fit, extracredit: covariance ellipse fit), with theorems checking
the natural-language specification against it.

Modelling conventions:
* C++ `double` values are embedded as exact rationals (every finite double
  is a rational number); arithmetic is exact, so the development verifies
  the real-arithmetic meaning of the code.
* `std::sqrt` is not rational, so boolean tests of the form
  `|sqrt s - r| <= t` that the code performs are decided over `ℚ` by the
  equivalent squared comparisons, and the bridge to `Real.sqrt` is proved
  (`nearBoundary_iff`).  Quantities that *are* square roots (distances,
  fitted radii) live in `ℝ`.
* C++ `int` is embedded as `ℤ`/`ℕ` (no overflow: the grid sizes involved
  are far below 2^31, and `static_cast<int>(std::floor x)` is exactly
  `⌊x⌋` for in-range values).
-/

namespace Problem1

/-- Point2D from Problem1/Geometry.h: a 2D point with real (here: exact
rational) coordinates. -/
structure Point2D where
  x : ℚ
  y : ℚ
deriving DecidableEq

/-- Point2D::distanceSquaredTo: dx*dx + dy*dy. -/
def Point2D.distanceSquaredTo (p other : Point2D) : ℚ :=
  (p.x - other.x) * (p.x - other.x) + (p.y - other.y) * (p.y - other.y)

/-- Point2D::distanceTo: Euclidean distance, sqrt(dx*dx + dy*dy).  The
square root forces the value into `ℝ`. -/
noncomputable def Point2D.distanceTo (p other : Point2D) : ℝ :=
  Real.sqrt ((p.distanceSquaredTo other : ℚ) : ℝ)

/-- Circle from Problem1/Geometry.h. -/
structure Circle where
  center : Point2D
  radius : ℚ
deriving DecidableEq

/-- Circle::isValid: radius > 0. -/
def Circle.isValid (c : Circle) : Bool :=
  decide (0 < c.radius)

/-- GridPoint from Problem1/Geometry.h. -/
structure GridPoint where
  gridPosition : Point2D
  canvasPosition : Point2D
  highlighted : Bool
deriving DecidableEq

/-- Config::RASTERIZATION_THRESHOLD from Problem1/Config.h: the literal
0.7071 (the code's decimal approximation of sqrt(2)/2). -/
def RASTERIZATION_THRESHOLD : ℚ := 0.7071

/-- CoordinateTransform from Problem1/Geometry.h (its three data members). -/
structure CoordinateTransform where
  gridSpacing : ℚ
  gridOrigin : Point2D
  gridSize : ℤ

/-- CoordinateTransform's constructor: spacing = min(availableWidth,
availableHeight)/(gridSize-1), origin centers the grid in the canvas. -/
def CoordinateTransform.create (gridSz canvasWidth canvasHeight padding : ℤ) :
    CoordinateTransform :=
  let availableWidth := canvasWidth - 2 * padding
  let availableHeight := canvasHeight - 2 * padding
  let minDimension := min availableWidth availableHeight
  let gridSpacing : ℚ := (minDimension : ℚ) / ((gridSz : ℚ) - 1)
  { gridSpacing := gridSpacing
    gridOrigin :=
      ⟨(padding : ℚ) + ((availableWidth : ℚ) - gridSpacing * ((gridSz : ℚ) - 1)) / 2,
       (padding : ℚ) + ((availableHeight : ℚ) - gridSpacing * ((gridSz : ℚ) - 1)) / 2⟩
    gridSize := gridSz }

/-- CoordinateTransform::canvasToGrid. -/
def CoordinateTransform.canvasToGrid (t : CoordinateTransform) (canvas : Point2D) : Point2D :=
  ⟨(canvas.x - t.gridOrigin.x) / t.gridSpacing,
   (canvas.y - t.gridOrigin.y) / t.gridSpacing⟩

/-- CoordinateTransform::gridToCanvas. -/
def CoordinateTransform.gridToCanvas (t : CoordinateTransform) (grid : Point2D) : Point2D :=
  ⟨t.gridOrigin.x + grid.x * t.gridSpacing,
   t.gridOrigin.y + grid.y * t.gridSpacing⟩

/-- Grid from Problem1/Grid.h: `points` indexed by (row, col); the C++
vector `points[row * size + col]` is embedded as a function of the two
indices. -/
structure Grid where
  size : ℕ
  points : ℕ → ℕ → GridPoint

/-- The Grid constructor: grid position (col, row), canvas position derived
once from the transform, highlighted = false. -/
def Grid.create (gridSize : ℕ) (canvasWidth canvasHeight padding : ℤ) : Grid :=
  let transform := CoordinateTransform.create gridSize canvasWidth canvasHeight padding
  { size := gridSize
    points := fun row col =>
      let gridPos : Point2D := ⟨(col : ℚ), (row : ℚ)⟩
      ⟨gridPos, transform.gridToCanvas gridPos, false⟩ }

/-- A grid whose points carry the positions the Grid constructor gives
them: the point at (row, col) has gridPosition (col, row).  Every grid the
program ever builds satisfies this (positions are set once at construction
and never mutated). -/
def Grid.WF (g : Grid) : Prop :=
  ∀ row col : ℕ, row < g.size → col < g.size →
    (g.points row col).gridPosition = ⟨(col : ℚ), (row : ℚ)⟩

/-- The rasterizer's per-point test: |distanceTo(center, p) - radius| <= t,
decided exactly over `ℚ` by squaring both inequalities
(sqrt s <= r+t  iff  0 <= r+t and s <= (r+t)^2;
 r-t <= sqrt s  iff  r-t <= 0 or (r-t)^2 <= s).
`nearBoundary_iff` proves this equal to the real-number test the code
performs. -/
def nearBoundary (center : Point2D) (radius : ℚ) (p : Point2D) (t : ℚ) : Bool :=
  decide ((0 ≤ radius + t ∧ center.distanceSquaredTo p ≤ (radius + t) ^ 2) ∧
          (radius - t ≤ 0 ∨ (radius - t) ^ 2 ≤ center.distanceSquaredTo p))

/-- CircleRasterizer::rasterize: no-op on an invalid circle; otherwise
every in-range point's flag becomes the boundary-proximity test. -/
def rasterize (g : Grid) (c : Circle) : Grid :=
  if c.isValid then
    { g with
      points := fun row col =>
        if row < g.size ∧ col < g.size then
          let p := g.points row col
          { p with
            highlighted := nearBoundary c.center c.radius p.gridPosition RASTERIZATION_THRESHOLD }
        else g.points row col }
  else g

/-- CircleRasterizer::rasterizeOptimized: computes the clamped integer
bounding box, sets flags by the proximity test inside it, and clears the
flag of every in-range point outside it.  The two C++ loops touch disjoint
index sets, so they are embedded as one pointwise update. -/
def rasterizeOptimized (g : Grid) (c : Circle) : Grid :=
  if c.isValid then
    let t := RASTERIZATION_THRESHOLD
    let minRow : ℤ := max 0 ⌊c.center.y - c.radius - t⌋
    let maxRow : ℤ := min ((g.size : ℤ) - 1) ⌈c.center.y + c.radius + t⌉
    let minCol : ℤ := max 0 ⌊c.center.x - c.radius - t⌋
    let maxCol : ℤ := min ((g.size : ℤ) - 1) ⌈c.center.x + c.radius + t⌉
    { g with
      points := fun row col =>
        if row < g.size ∧ col < g.size then
          let p := g.points row col
          if minRow ≤ (row : ℤ) ∧ (row : ℤ) ≤ maxRow ∧ minCol ≤ (col : ℤ) ∧ (col : ℤ) ≤ maxCol then
            { p with highlighted := nearBoundary c.center c.radius p.gridPosition t }
          else
            { p with highlighted := false }
        else g.points row col }
  else g

/-- The grid's points in the row-major order of the C++ vector. -/
def Grid.gridPointsList (g : Grid) : List GridPoint :=
  (List.range g.size).flatMap fun row => (List.range g.size).map fun col => g.points row col

/-- One step of Grid::calculateBoundingCircles' scan, carried out on
squared distances (the running min/max over distances equals the square
root of the running min/max over squared distances, sqrt being monotone).
The accumulator is (hasHighlightedPoints, minDistance^2, maxDistance^2);
the DBL_MAX initialisation of minDistance in the source is embedded by
taking the first highlighted point's distance outright. -/
def bcStep (center : Point2D) (acc : Bool × ℚ × ℚ) (p : GridPoint) : Bool × ℚ × ℚ :=
  if p.highlighted then
    (true,
     (if acc.1 then min acc.2.1 (center.distanceSquaredTo p.gridPosition)
      else center.distanceSquaredTo p.gridPosition),
     max acc.2.2 (center.distanceSquaredTo p.gridPosition))
  else acc

/-- The scan of Grid::calculateBoundingCircles over all points. -/
def bcFold (g : Grid) (center : Point2D) : Bool × ℚ × ℚ :=
  g.gridPointsList.foldl (bcStep center) (false, 0, 0)

/-- A circle whose radius is a derived real quantity (a Euclidean
distance); the output type of the bounding-circle computation. -/
structure CircleR where
  center : Point2D
  radius : ℝ

/-- Grid::calculateBoundingCircles: `none` embeds the `return false` /
no-output case; otherwise (inner, outer) with radii the min and max
distances from the center to the highlighted points. -/
noncomputable def calculateBoundingCircles (g : Grid) (center : Point2D) :
    Option (CircleR × CircleR) :=
  let r := bcFold g center
  if r.1 then
    some (⟨center, Real.sqrt ((r.2.1 : ℚ) : ℝ)⟩, ⟨center, Real.sqrt ((r.2.2 : ℚ) : ℝ)⟩)
  else none

/-- Concrete inputs used by witnesses and counterexamples below: the
program's standard grid (20 x 20 on an 800 x 800 canvas with padding 50). -/
def cexGrid : Grid := Grid.create 20 800 800 50

/-- A circle of radius 0.70710678, which lies strictly between the code's
threshold 0.7071 and sqrt(2)/2. -/
def cexCircle : Circle := ⟨⟨0, 0⟩, 0.70710678⟩

/-- A small constructor-shaped grid for witnesses. -/
def wfGrid : Grid := Grid.create 3 100 100 10

/-- A 2 x 2 grid with exactly the point at (row 0, col 1) highlighted. -/
def bcWitGrid : Grid :=
  ⟨2, fun row col => ⟨⟨(col : ℚ), (row : ℚ)⟩, ⟨0, 0⟩, decide (row = 0 ∧ col = 1)⟩⟩

end Problem1

namespace Problem2

/-- Point from Problem2/Geometry.h. -/
structure Point where
  x : ℚ
  y : ℚ
deriving DecidableEq

/-- Circle from Problem2/Geometry.h.  Its radius is the mean of Euclidean
distances, a real quantity; the centers FitCircle produces are rational. -/
structure Circle where
  center : Point
  radius : ℝ

/-- The default-constructed Circle(): center (0,0), radius 0 — the
invalid-result sentinel. -/
def Circle.invalid : Circle := ⟨⟨0, 0⟩, 0⟩

/-- Sum of x coordinates (the sum_x accumulation loop of FitCircle). -/
def sumX (l : List Point) : ℚ := (l.map fun p => p.x).sum

/-- Sum of y coordinates. -/
def sumY (l : List Point) : ℚ := (l.map fun p => p.y).sum

/-- Centroid x: cx = sum_x / points.size(). -/
def centroidX (pts : List Point) : ℚ := sumX pts / pts.length

/-- Centroid y: cy = sum_y / points.size(). -/
def centroidY (pts : List Point) : ℚ := sumY pts / pts.length

/-- FitCircle's translated point list: each point minus the centroid. -/
def translated (pts : List Point) : List Point :=
  pts.map fun p => ⟨p.x - centroidX pts, p.y - centroidY pts⟩

/-- Second-moment sum: Σ x*x over a list (the Mxx accumulation before the
division by n). -/
def Sxx (l : List Point) : ℚ := (l.map fun p => p.x * p.x).sum

/-- Second-moment sum Σ y*y. -/
def Syy (l : List Point) : ℚ := (l.map fun p => p.y * p.y).sum

/-- Second-moment sum Σ x*y. -/
def Sxy (l : List Point) : ℚ := (l.map fun p => p.x * p.y).sum

/-- Third-moment sum Σ x*z where z = x*x + y*y. -/
def Sxz (l : List Point) : ℚ := (l.map fun p => p.x * (p.x * p.x + p.y * p.y)).sum

/-- Third-moment sum Σ y*z. -/
def Syz (l : List Point) : ℚ := (l.map fun p => p.y * (p.x * p.x + p.y * p.y)).sum

/-- Fourth-moment sum Σ z*z. -/
def Szz (l : List Point) : ℚ :=
  (l.map fun p => (p.x * p.x + p.y * p.y) * (p.x * p.x + p.y * p.y)).sum

/-- FitCircle's normalized moment Mxx (applied to the translated list,
whose length equals points.size()). -/
def Mxx (l : List Point) : ℚ := Sxx l / l.length

/-- Normalized moment Myy. -/
def Myy (l : List Point) : ℚ := Syy l / l.length

/-- Normalized moment Mxy. -/
def Mxy (l : List Point) : ℚ := Sxy l / l.length

/-- Normalized moment Mxz. -/
def Mxz (l : List Point) : ℚ := Sxz l / l.length

/-- Normalized moment Myz. -/
def Myz (l : List Point) : ℚ := Syz l / l.length

/-- Normalized moment Mzz. -/
def Mzz (l : List Point) : ℚ := Szz l / l.length

/-- Coefficient Mz = Mxx + Myy. -/
def Mz (l : List Point) : ℚ := Mxx l + Myy l

/-- Coefficient Cov_xy = Mxx*Myy - Mxy*Mxy. -/
def Cov_xy (l : List Point) : ℚ := Mxx l * Myy l - Mxy l * Mxy l

/-- Coefficient Var_z = Mzz - Mz*Mz. -/
def Var_z (l : List Point) : ℚ := Mzz l - Mz l * Mz l

/-- Characteristic-polynomial coefficient A2. -/
def A2 (l : List Point) : ℚ := 4 * Cov_xy l - 3 * Mz l * Mz l - Mzz l

/-- Characteristic-polynomial coefficient A1. -/
def A1 (l : List Point) : ℚ :=
  Var_z l * Mz l + 4 * Cov_xy l * Mz l + Mxz l * Mxz l + Myz l * Myz l

/-- Characteristic-polynomial coefficient A0. -/
def A0 (l : List Point) : ℚ :=
  Mxz l * (Mxz l * Myy l - Myz l * Mxy l) +
    Myz l * (Myz l * Mxx l - Mxz l * Mxy l) - Var_z l * Cov_xy l

/-- FitCircle's damped Newton loop, one constructor case per C++ loop
iteration; `remaining` counts iterations still allowed, so the C++
condition iter >= IterMax - 1 is remaining = 1 (the `r = 0` test below).
Division by zero in `ℚ` yields 0, matching the loop's effective behaviour
(a zero derivative leaves x unchanged and the relative-step test then
stops the iteration). -/
def newtonGo (A0c A1c A2c A22 : ℚ) : ℕ → ℚ → ℚ → ℚ
  | 0, xnew, _ => xnew
  | r + 1, xnew, ynew =>
    let yold := ynew
    let ynew1 := A0c + xnew * (A1c + xnew * (A2c + 4 * xnew * xnew))
    if |ynew1| > |yold| then 0
    else
      let Dy := A1c + xnew * (A22 + 16 * xnew * xnew)
      let xold := xnew
      let xnew1 := xold - ynew1 / Dy
      if |(xnew1 - xold) / xnew1| < 1e-12 then xnew1
      else
        let xnew2 := if r = 0 then 0 else xnew1
        if xnew2 < 0 then 0
        else newtonGo A0c A1c A2c A22 r xnew2 ynew1

/-- The Newton solve as FitCircle calls it: IterMax = 20, xnew = 0,
ynew = 1e+20. -/
def newtonSolve (A0c A1c A2c A22 : ℚ) : ℚ := newtonGo A0c A1c A2c A22 20 0 1e20

/-- The root xnew the Newton loop leaves behind, as a function of the
(translated) point list. -/
def root (l : List Point) : ℚ := newtonSolve (A0 l) (A1 l) (A2 l) (A2 l + A2 l)

/-- DET = xnew*xnew - xnew*Mz + Cov_xy, the collinearity determinant. -/
def DET (l : List Point) : ℚ := root l * root l - root l * Mz l + Cov_xy l

/-- FitCircle from Problem2/Geometry.h.  The NaN/Inf checks of the final
sanity filter have no exact-arithmetic counterpart (every value here is a
finite real) and are dropped; the radius <= 0 and radius > 10000 checks
are kept. -/
noncomputable def FitCircle (points : List Point) : Circle :=
  if points.length < 3 then Circle.invalid
  else
    if |DET (translated points)| < 1e-10 then Circle.invalid
    else
      let tl := translated points
      let xnew := root tl
      let center_x := (Mxz tl * (Myy tl - xnew) - Myz tl * Mxy tl) / DET tl / 2 + centroidX points
      let center_y := (Myz tl * (Mxx tl - xnew) - Mxz tl * Mxy tl) / DET tl / 2 + centroidY points
      let radius : ℝ :=
        ((points.map fun p =>
            Real.sqrt (((p.x - center_x) * (p.x - center_x) +
              (p.y - center_y) * (p.y - center_y) : ℚ) : ℝ)).sum) / (points.length : ℝ)
      if radius ≤ 0 ∨ radius > 10000 then Circle.invalid
      else ⟨⟨center_x, center_y⟩, radius⟩

/-- A point list lying exactly on one straight line a*x + b*y = c with
(a, b) ≠ (0, 0). -/
def Collinear (pts : List Point) : Prop :=
  ∃ a b c : ℚ, (a ≠ 0 ∨ b ≠ 0) ∧ ∀ p ∈ pts, a * p.x + b * p.y = c

/-- Auxiliary cube sum Σ x^3 (proof vocabulary for the collinear case, not
a quantity of the source). -/
def Sx3 (l : List Point) : ℚ := (l.map fun p => p.x * p.x * p.x).sum

end Problem2

namespace ExtraCredit

/-- Point from extracredit/Geometry.h. -/
structure Point where
  x : ℚ
  y : ℚ
deriving DecidableEq

/-- EllipseShape from extracredit/Geometry.h.  The center FitEllipse
produces is the (rational) mean; the axes and angle are real. -/
structure EllipseShape where
  center : ℚ × ℚ
  a : ℝ
  b : ℝ
  angle : ℝ
  valid : Bool

/-- The default-constructed EllipseShape(): all zero, valid = false. -/
def EllipseShape.invalid : EllipseShape := ⟨(0, 0), 0, 0, 0, false⟩

/-- Mean of x coordinates (mean_x, recomputed later as mx — identical). -/
def meanX (pts : List Point) : ℚ := (pts.map fun p => p.x).sum / pts.length

/-- Mean of y coordinates. -/
def meanY (pts : List Point) : ℚ := (pts.map fun p => p.y).sum / pts.length

/-- Collinearity-guard sum var_x = Σ (x - mean_x)^2 (no division by n). -/
def var_x (pts : List Point) : ℚ :=
  (pts.map fun p => (p.x - meanX pts) * (p.x - meanX pts)).sum

/-- Collinearity-guard sum var_y. -/
def var_y (pts : List Point) : ℚ :=
  (pts.map fun p => (p.y - meanY pts) * (p.y - meanY pts)).sum

/-- Collinearity-guard sum covar = Σ (x - mean_x)(y - mean_y). -/
def covar (pts : List Point) : ℚ :=
  (pts.map fun p => (p.x - meanX pts) * (p.y - meanY pts)).sum

/-- The collinearity determinant det = var_x*var_y - covar*covar. -/
def detVar (pts : List Point) : ℚ := var_x pts * var_y pts - covar pts * covar pts

/-- Raw sum Σ x (an entry of the scatter matrix S3). -/
def Sx (pts : List Point) : ℚ := (pts.map fun p => p.x).sum

/-- Raw sum Σ y. -/
def Sy (pts : List Point) : ℚ := (pts.map fun p => p.y).sum

/-- Raw sum Σ x*x. -/
def Sxx (pts : List Point) : ℚ := (pts.map fun p => p.x * p.x).sum

/-- Raw sum Σ y*y. -/
def Syy (pts : List Point) : ℚ := (pts.map fun p => p.y * p.y).sum

/-- Raw sum Σ x*y. -/
def Sxy (pts : List Point) : ℚ := (pts.map fun p => p.x * p.y).sum

/-- det_S3, the determinant of S3 = Σ (x,y,1)(x,y,1)^T expanded exactly as
the code writes it (S3 = [[Σx², Σxy, Σx], [Σxy, Σy², Σy], [Σx, Σy, n]]). -/
def detS3 (pts : List Point) : ℚ :=
  Sxx pts * (Syy pts * pts.length - Sy pts * Sy pts) -
    Sxy pts * (Sxy pts * pts.length - Sy pts * Sx pts) +
    Sx pts * (Sxy pts * Sy pts - Syy pts * Sx pts)

/-- Normalized central second moment mxx = Σ(x-mx)^2 / n. -/
def mxx (pts : List Point) : ℚ := var_x pts / pts.length

/-- Normalized central second moment myy. -/
def myy (pts : List Point) : ℚ := var_y pts / pts.length

/-- Normalized central second moment mxy. -/
def mxy (pts : List Point) : ℚ := covar pts / pts.length

/-- std::atan2(y, x) on exact reals (C99 semantics; the NaN cases have no
exact-arithmetic counterpart). -/
noncomputable def atan2 (y x : ℝ) : ℝ :=
  if 0 < x then Real.arctan (y / x)
  else if x < 0 then
    (if 0 ≤ y then Real.arctan (y / x) + Real.pi else Real.arctan (y / x) - Real.pi)
  else if 0 < y then Real.pi / 2
  else if y < 0 then -(Real.pi / 2)
  else 0

/-- Principal-axis angle theta = 0.5*atan2(2*mxy, mxx - myy). -/
noncomputable def theta (pts : List Point) : ℝ :=
  0.5 * atan2 (2 * (mxy pts : ℝ)) ((mxx pts : ℝ) - (myy pts : ℝ))

/-- Variance along the first principal direction. -/
noncomputable def var1 (pts : List Point) : ℝ :=
  (mxx pts : ℝ) * Real.cos (theta pts) * Real.cos (theta pts) +
    (myy pts : ℝ) * Real.sin (theta pts) * Real.sin (theta pts) +
    2 * (mxy pts : ℝ) * Real.cos (theta pts) * Real.sin (theta pts)

/-- Variance along the orthogonal principal direction. -/
noncomputable def var2 (pts : List Point) : ℝ :=
  (mxx pts : ℝ) * Real.sin (theta pts) * Real.sin (theta pts) +
    (myy pts : ℝ) * Real.cos (theta pts) * Real.cos (theta pts) -
    2 * (mxy pts : ℝ) * Real.cos (theta pts) * Real.sin (theta pts)

/-- The literal 3.14159265358979323846 the code adds half of when it swaps
the axes (the double approximation of pi, kept exactly as written). -/
def PI_LITERAL : ℚ := 3.14159265358979323846

/-- FitEllipse from extracredit/Geometry.h.  The matrices S1, S2, T, M and
the constraint matrix C are computed by the code but never used (the
function switches to the moment-based estimate after the det_S3 guard), so
they have no embedding; the mean is computed twice in the source (mean_x =
mx), embedded once.  The isnan check of the final filter has no
exact-arithmetic counterpart and is dropped. -/
noncomputable def FitEllipse (points : List Point) : EllipseShape :=
  if points.length < 5 then EllipseShape.invalid
  else if |detVar points| < 1e-6 then EllipseShape.invalid
  else if |detS3 points| < 1e-10 then EllipseShape.invalid
  else
    let a_axis : ℝ := 2 * Real.sqrt |var1 points|
    let b_axis : ℝ := 2 * Real.sqrt |var2 points|
    let a1 : ℝ := if b_axis > a_axis then b_axis else a_axis
    let b1 : ℝ := if b_axis > a_axis then a_axis else b_axis
    let theta1 : ℝ := if b_axis > a_axis then theta points + (PI_LITERAL : ℝ) / 2 else theta points
    if a1 ≤ 0 ∨ b1 ≤ 0 ∨ a1 > 10000 ∨ b1 > 10000 then EllipseShape.invalid
    else ⟨(meanX points, meanY points), a1, b1, theta1, true⟩

/-- A concrete five-point input on which FitEllipse succeeds
(axis-aligned cross: moments mxx = 8/5, myy = 2/5, mxy = 0). -/
def demoPts : List Point := [⟨2, 0⟩, ⟨-2, 0⟩, ⟨0, 1⟩, ⟨0, -1⟩, ⟨0, 0⟩]

end ExtraCredit

/-! ## General list-sum lemmas used by the moment computations -/

theorem sum_map_add {α : Type} (l : List α) (f g : α → ℚ) :
    (l.map fun a => f a + g a).sum = (l.map f).sum + (l.map g).sum := by
  induction l with
  | nil => simp
  | cons a l ih => simp [ih]; ring

theorem sum_map_sub {α : Type} (l : List α) (f g : α → ℚ) :
    (l.map fun a => f a - g a).sum = (l.map f).sum - (l.map g).sum := by
  induction l with
  | nil => simp
  | cons a l ih => simp [ih]; ring

theorem sum_map_mul_left {α : Type} (l : List α) (c : ℚ) (f : α → ℚ) :
    (l.map fun a => c * f a).sum = c * (l.map f).sum := by
  induction l with
  | nil => simp
  | cons a l ih => simp [ih]; ring

theorem sum_map_const {α : Type} (l : List α) (c : ℚ) :
    (l.map fun _ => c).sum = l.length * c := by
  induction l with
  | nil => simp
  | cons a l ih => simp [ih]; ring

theorem sum_map_congr {α : Type} {l : List α} {f g : α → ℚ}
    (h : ∀ a ∈ l, f a = g a) : (l.map f).sum = (l.map g).sum := by
  rw [List.map_congr_left h]

namespace Problem1

/-! ## C8: invalid circles are no-ops for both rasterizers -/

/-- C8: for every circle with radius ≤ 0 and every grid state, rasterize
and rasterizeOptimized return the grid unchanged: every point's
highlighted flag and both positions are exactly what they were. -/
theorem rasterize_invalid_noop (g : Grid) (c : Circle) (h : c.radius ≤ 0) :
    rasterize g c = g ∧ rasterizeOptimized g c = g := by
  have hv : c.isValid = false := by
    simp [Circle.isValid, not_lt.mpr h]
  rw [rasterize, rasterizeOptimized, hv]
  simp

/-- Witness: the invalid circle of radius 0 at (1,1) leaves the standard
small grid untouched. -/
theorem rasterize_invalid_noop_witness :
    rasterize wfGrid ⟨⟨1, 1⟩, 0⟩ = wfGrid ∧ rasterizeOptimized wfGrid ⟨⟨1, 1⟩, 0⟩ = wfGrid :=
  rasterize_invalid_noop wfGrid ⟨⟨1, 1⟩, 0⟩ (by norm_num)

/-! ## C9: the coordinate transforms are exact affine inverses -/

/-- Round trip grid -> canvas -> grid, for any transform with nonzero
spacing. -/
theorem canvasToGrid_gridToCanvas (t : CoordinateTransform)
    (h : t.gridSpacing ≠ 0) (p : Point2D) :
    t.canvasToGrid (t.gridToCanvas p) = p := by
  cases p with
  | mk px py =>
    simp only [CoordinateTransform.canvasToGrid, CoordinateTransform.gridToCanvas,
      Point2D.mk.injEq]
    constructor <;> field_simp

/-- Round trip canvas -> grid -> canvas, for any transform with nonzero
spacing. -/
theorem gridToCanvas_canvasToGrid (t : CoordinateTransform)
    (h : t.gridSpacing ≠ 0) (p : Point2D) :
    t.gridToCanvas (t.canvasToGrid p) = p := by
  cases p with
  | mk px py =>
    simp only [CoordinateTransform.canvasToGrid, CoordinateTransform.gridToCanvas,
      Point2D.mk.injEq]
    constructor <;> field_simp

/-- C9: whenever the documented preconditions hold (gridSize ≥ 2 and a
positive available drawing area, so that the spacing is positive),
canvasToGrid and gridToCanvas are exact two-sided inverses on every point;
and in the 20 x 20 / 800 x 800 / padding 50 scenario the spacing is
700/19 ≈ 36.84 and the grid point (0,0) round-trips exactly. -/
theorem coordinateTransform_inverses :
    (∀ gz cw ch pad : ℤ, 2 ≤ gz → 0 < min (cw - 2 * pad) (ch - 2 * pad) →
      ∀ p : Point2D,
        (CoordinateTransform.create gz cw ch pad).canvasToGrid
            ((CoordinateTransform.create gz cw ch pad).gridToCanvas p) = p ∧
        (CoordinateTransform.create gz cw ch pad).gridToCanvas
            ((CoordinateTransform.create gz cw ch pad).canvasToGrid p) = p) ∧
    (CoordinateTransform.create 20 800 800 50).gridSpacing = 700 / 19 ∧
    |(CoordinateTransform.create 20 800 800 50).gridSpacing - 36.84| < 0.01 ∧
    (CoordinateTransform.create 20 800 800 50).canvasToGrid
        ((CoordinateTransform.create 20 800 800 50).gridToCanvas ⟨0, 0⟩) = ⟨0, 0⟩ ∧
    (CoordinateTransform.create 20 800 800 50).gridToCanvas
        ((CoordinateTransform.create 20 800 800 50).canvasToGrid ⟨0, 0⟩) = ⟨0, 0⟩ := by
  have h1 : (CoordinateTransform.create 20 800 800 50).gridSpacing = 700 / 19 := by
    norm_num [CoordinateTransform.create]
  have h2 : (CoordinateTransform.create 20 800 800 50).gridSpacing ≠ 0 := by
    rw [h1]; norm_num
  refine ⟨?_, h1, by rw [h1, abs_lt]; constructor <;> norm_num,
    canvasToGrid_gridToCanvas _ h2 _, gridToCanvas_canvasToGrid _ h2 _⟩
  intro gz cw ch pad hgz hmin p
  have hs : 0 < (CoordinateTransform.create gz cw ch pad).gridSpacing := by
    have h1 : (0 : ℚ) < ((min (cw - 2 * pad) (ch - 2 * pad) : ℤ) : ℚ) := by
      exact_mod_cast hmin
    have h2 : (0 : ℚ) < (gz : ℚ) - 1 := by
      have : (1 : ℤ) < gz := by omega
      have : (1 : ℚ) < (gz : ℚ) := by exact_mod_cast this
      linarith
    simp only [CoordinateTransform.create]
    positivity
  have hs' : (CoordinateTransform.create gz cw ch pad).gridSpacing ≠ 0 := ne_of_gt hs
  exact ⟨canvasToGrid_gridToCanvas _ hs' p, gridToCanvas_canvasToGrid _ hs' p⟩

/-! ## The boundary-proximity test and the real-number predicate it decides -/

/-- The squared-comparison test `nearBoundary` decides exactly the
real-number condition the rasterizer computes:
|distanceTo(center, p) - radius| ≤ t. -/
theorem nearBoundary_iff (center p : Point2D) (r t : ℚ) :
    nearBoundary center r p t = true ↔
      |center.distanceTo p - (r : ℝ)| ≤ (t : ℝ) := by
  rw [nearBoundary, Point2D.distanceTo, decide_eq_true_eq, abs_le]
  have hs0 : (0 : ℚ) ≤ center.distanceSquaredTo p := by
    rw [Point2D.distanceSquaredTo]
    exact add_nonneg (mul_self_nonneg _) (mul_self_nonneg _)
  constructor
  · rintro ⟨⟨h1, h2⟩, h3⟩
    have h2R : ((center.distanceSquaredTo p : ℚ) : ℝ) ≤ ((r : ℝ) + (t : ℝ)) ^ 2 := by
      exact_mod_cast h2
    have h1R : (0 : ℝ) ≤ (r : ℝ) + (t : ℝ) := by exact_mod_cast h1
    have hup : Real.sqrt ((center.distanceSquaredTo p : ℚ) : ℝ) ≤ (r : ℝ) + (t : ℝ) :=
      Real.sqrt_le_iff.mpr ⟨h1R, h2R⟩
    refine ⟨?_, by linarith⟩
    rcases h3 with h3 | h3
    · have h3R : (r : ℝ) - (t : ℝ) ≤ 0 := by exact_mod_cast h3
      have := Real.sqrt_nonneg ((center.distanceSquaredTo p : ℚ) : ℝ)
      linarith
    · have h3R : ((r : ℝ) - (t : ℝ)) ^ 2 ≤ ((center.distanceSquaredTo p : ℚ) : ℝ) := by
        exact_mod_cast h3
      have := Real.le_sqrt_of_sq_le h3R
      linarith
  · rintro ⟨hlo, hhi⟩
    have hup : Real.sqrt ((center.distanceSquaredTo p : ℚ) : ℝ) ≤ (r : ℝ) + (t : ℝ) := by
      linarith
    have hks := Real.sqrt_le_iff.mp hup
    refine ⟨⟨?_, ?_⟩, ?_⟩
    · exact_mod_cast hks.1
    · exact_mod_cast hks.2
    · by_cases hc : r - t ≤ 0
      · exact Or.inl hc
      · right
        have hpos : (0 : ℝ) < (r : ℝ) - (t : ℝ) := by
          have := not_le.mp hc; exact_mod_cast this
        have h2 : (r : ℝ) - (t : ℝ) ≤ Real.sqrt ((center.distanceSquaredTo p : ℚ) : ℝ) := by
          linarith
        have := (Real.le_sqrt' hpos).mp h2
        exact_mod_cast this

/-- A point that passes the proximity test lies within r + t of the
center along each coordinate separately. -/
theorem nearBoundary_bounds {center p : Point2D} {r t : ℚ}
    (h : nearBoundary center r p t = true) :
    center.y - r - t ≤ p.y ∧ p.y ≤ center.y + r + t ∧
      center.x - r - t ≤ p.x ∧ p.x ≤ center.x + r + t := by
  rw [nearBoundary, decide_eq_true_eq] at h
  obtain ⟨⟨h1, h2⟩, -⟩ := h
  rw [Point2D.distanceSquaredTo] at h2
  refine ⟨by nlinarith [sq_nonneg (center.x - p.x), sq_nonneg (center.y - p.y + (r + t))],
    by nlinarith [sq_nonneg (center.x - p.x), sq_nonneg (center.y - p.y - (r + t))],
    by nlinarith [sq_nonneg (center.y - p.y), sq_nonneg (center.x - p.x + (r + t))],
    by nlinarith [sq_nonneg (center.y - p.y), sq_nonneg (center.x - p.x - (r + t))]⟩

/-! ## C1: rasterize and rasterizeOptimized agree on every flag -/

/-- Constructor-built grids satisfy the position invariant. -/
theorem Grid.create_WF (n : ℕ) (w h p : ℤ) : (Grid.create n w h p).WF :=
  fun _ _ _ _ => rfl

/-- C1: for every valid circle (radius > 0), including circles whose
center lies outside the grid bounds, rasterize and rasterizeOptimized
leave identical highlighted flags at every point of any
constructor-positioned grid. -/
theorem rasterize_optimized_equiv (g : Grid) (c : Circle) (hwf : g.WF) (hr : 0 < c.radius) :
    ∀ row col : ℕ, ((rasterize g c).points row col).highlighted =
      ((rasterizeOptimized g c).points row col).highlighted := by
  intro row col
  have hv : c.isValid = true := by simp [Circle.isValid]; exact hr
  rw [rasterize, rasterizeOptimized, hv]
  simp only [if_true]
  by_cases hin : row < g.size ∧ col < g.size
  · simp only [hin, and_self, if_true]
    by_cases hbox : max 0 ⌊c.center.y - c.radius - RASTERIZATION_THRESHOLD⌋ ≤ (row : ℤ) ∧
        (row : ℤ) ≤ min ((g.size : ℤ) - 1) ⌈c.center.y + c.radius + RASTERIZATION_THRESHOLD⌉ ∧
        max 0 ⌊c.center.x - c.radius - RASTERIZATION_THRESHOLD⌋ ≤ (col : ℤ) ∧
        (col : ℤ) ≤ min ((g.size : ℤ) - 1) ⌈c.center.x + c.radius + RASTERIZATION_THRESHOLD⌉
    · rw [if_pos hbox]
    · rw [if_neg hbox]
      show nearBoundary c.center c.radius (g.points row col).gridPosition
          RASTERIZATION_THRESHOLD = false
      rw [hwf row col hin.1 hin.2]
      by_contra hcon
      rw [Bool.not_eq_false] at hcon
      obtain ⟨hy1, hy2, hx1, hx2⟩ := nearBoundary_bounds hcon
      simp only at hy1 hy2 hx1 hx2
      apply hbox
      have hrow' := hin.1
      have hcol' := hin.2
      refine ⟨max_le (by positivity) ?_, le_min (by omega) ?_, max_le (by positivity) ?_,
        le_min (by omega) ?_⟩
      · have hq : (⌊c.center.y - c.radius - RASTERIZATION_THRESHOLD⌋ : ℚ) ≤ ((row : ℤ) : ℚ) :=
          le_trans (Int.floor_le _) (by push_cast; linarith)
        exact_mod_cast hq
      · have hq : (((row : ℤ) : ℚ)) ≤ (⌈c.center.y + c.radius + RASTERIZATION_THRESHOLD⌉ : ℚ) :=
          le_trans (by push_cast; linarith) (Int.le_ceil _)
        exact_mod_cast hq
      · have hq : (⌊c.center.x - c.radius - RASTERIZATION_THRESHOLD⌋ : ℚ) ≤ ((col : ℤ) : ℚ) :=
          le_trans (Int.floor_le _) (by push_cast; linarith)
        exact_mod_cast hq
      · have hq : (((col : ℤ) : ℚ)) ≤ (⌈c.center.x + c.radius + RASTERIZATION_THRESHOLD⌉ : ℚ) :=
          le_trans (by push_cast; linarith) (Int.le_ceil _)
        exact_mod_cast hq
  · simp only [hin, if_false]

/-- Witness for C1: a concrete circle on the concrete 3 x 3 grid. -/
theorem rasterize_optimized_equiv_witness :
    ((rasterize wfGrid ⟨⟨1, 2⟩, 3⟩).points 2 0).highlighted =
      ((rasterizeOptimized wfGrid ⟨⟨1, 2⟩, 3⟩).points 2 0).highlighted :=
  rasterize_optimized_equiv wfGrid ⟨⟨1, 2⟩, 3⟩ (Grid.create_WF 3 100 100 10) (by norm_num) 2 0

/-! ## C2: the flag is exactly the thresholded boundary distance -/

/-- C2, amended: after rasterize with a valid circle, the flag of every
in-range point is true iff |distance(gridPosition, center) - radius| is at
most the code's threshold constant 0.7071 (not sqrt(2)/2: the constant in
Config.h is the four-digit literal, see the counterexample below). -/
theorem rasterize_flag_iff (g : Grid) (c : Circle) (hr : 0 < c.radius)
    (row col : ℕ) (hrow : row < g.size) (hcol : col < g.size) :
    (((rasterize g c).points row col).highlighted = true ↔
      |c.center.distanceTo ((g.points row col).gridPosition) - (c.radius : ℝ)| ≤
        ((RASTERIZATION_THRESHOLD : ℚ) : ℝ)) := by
  have hv : c.isValid = true := by simp [Circle.isValid]; exact hr
  rw [rasterize, hv]
  simp only [if_true, hrow, hcol, and_self]
  exact nearBoundary_iff c.center ((g.points row col).gridPosition) c.radius
    RASTERIZATION_THRESHOLD

/-- Witness for C2 (amended): radius-1 circle at (1,1) on the 3 x 3 grid,
point (row 0, col 1). -/
theorem rasterize_flag_iff_witness :
    (((rasterize wfGrid ⟨⟨1, 1⟩, 1⟩).points 0 1).highlighted = true ↔
      |Point2D.distanceTo ⟨1, 1⟩ ((wfGrid.points 0 1).gridPosition) - ((1 : ℚ) : ℝ)| ≤
        ((RASTERIZATION_THRESHOLD : ℚ) : ℝ)) :=
  rasterize_flag_iff wfGrid ⟨⟨1, 1⟩, 1⟩ (by norm_num) 0 1
    (by norm_num [wfGrid, Grid.create]) (by norm_num [wfGrid, Grid.create])

/-- Counterexample to C2 as stated: the valid circle of radius 0.70710678
centered at grid point (0,0).  That radius is the distance from (0,0) to
the boundary, it does not exceed sqrt(2)/2, yet the code leaves the flag
false because 0.70710678 > 0.7071. -/
theorem rasterize_flag_sqrt2_cex :
    0 < cexCircle.radius ∧
    ((rasterize cexGrid cexCircle).points 0 0).highlighted = false ∧
    |cexCircle.center.distanceTo ((cexGrid.points 0 0).gridPosition) - (cexCircle.radius : ℝ)| ≤
      Real.sqrt 2 / 2 := by
  have hpos : (cexGrid.points 0 0).gridPosition = ⟨0, 0⟩ := by
    norm_num [cexGrid, Grid.create]
  have hv : cexCircle.isValid = true := by norm_num [cexCircle, Circle.isValid]
  refine ⟨by norm_num [cexCircle], ?_, ?_⟩
  · rw [rasterize, hv]
    have hsz : (0 : ℕ) < cexGrid.size := by norm_num [cexGrid, Grid.create]
    simp only [if_true, hsz, and_self]
    rw [hpos]
    rw [nearBoundary, decide_eq_false_iff_not]
    intro hcon
    rcases hcon.2 with h | h
    · norm_num [cexCircle, RASTERIZATION_THRESHOLD] at h
    · norm_num [cexCircle, RASTERIZATION_THRESHOLD, Point2D.distanceSquaredTo] at h
  · rw [hpos]
    have hd : Point2D.distanceTo cexCircle.center ⟨0, 0⟩ = 0 := by
      norm_num [Point2D.distanceTo, Point2D.distanceSquaredTo, cexCircle, Real.sqrt_zero]
    rw [hd]
    have hs : (1.41421356 : ℝ) ≤ Real.sqrt 2 := Real.le_sqrt_of_sq_le (by norm_num)
    rw [zero_sub, abs_neg, abs_of_nonneg (by norm_num [cexCircle])]
    norm_num [cexCircle]
    linarith

/-! ## C3: bounding circles are the min/max distances to highlighted points -/

/-- The scan's hasHighlightedPoints flag is the disjunction of the flags
seen so far. -/
theorem bcFold_fst (center : Point2D) :
    ∀ (l : List GridPoint) (acc : Bool × ℚ × ℚ),
      (l.foldl (bcStep center) acc).1 = (acc.1 || l.any fun p => p.highlighted) := by
  intro l
  induction l with
  | nil => simp
  | cons p l ih =>
    intro acc
    rw [List.foldl_cons, ih, List.any_cons]
    rw [bcStep]
    by_cases hp : p.highlighted = true <;> simp [hp]

/-- Once a highlighted point has been seen, the running squared minimum
never increases. -/
theorem bcFold_min_mono (center : Point2D) :
    ∀ (l : List GridPoint) (acc : Bool × ℚ × ℚ), acc.1 = true →
      (l.foldl (bcStep center) acc).2.1 ≤ acc.2.1 := by
  intro l
  induction l with
  | nil => intro acc _; simp
  | cons p l ih =>
    intro acc hacc
    rw [List.foldl_cons, bcStep]
    by_cases hp : p.highlighted = true
    · simp only [hp, if_true, hacc]
      exact le_trans (ih _ rfl) (by simp [hacc])
    · simp only [hp, if_false]
      exact ih acc hacc

/-- The final squared minimum is a lower bound for the squared distance of
every highlighted point of the scanned list. -/
theorem bcFold_min_le (center : Point2D) :
    ∀ (l : List GridPoint) (acc : Bool × ℚ × ℚ) (p : GridPoint), p ∈ l →
      p.highlighted = true →
      (l.foldl (bcStep center) acc).2.1 ≤ center.distanceSquaredTo p.gridPosition := by
  intro l
  induction l with
  | nil => intro acc p hp; simp at hp
  | cons q l ih =>
    intro acc p hp hhp
    rw [List.foldl_cons]
    rcases List.mem_cons.mp hp with rfl | hmem
    · rw [bcStep]
      simp only [hhp, if_true]
      refine le_trans (bcFold_min_mono center l _ rfl) ?_
      by_cases hacc : acc.1 = true <;> simp [hacc]
    · exact ih _ p hmem hhp

/-- The running squared maximum never decreases. -/
theorem bcFold_max_mono (center : Point2D) :
    ∀ (l : List GridPoint) (acc : Bool × ℚ × ℚ),
      acc.2.2 ≤ (l.foldl (bcStep center) acc).2.2 := by
  intro l
  induction l with
  | nil => intro acc; simp
  | cons p l ih =>
    intro acc
    rw [List.foldl_cons, bcStep]
    by_cases hp : p.highlighted = true
    · simp only [hp, if_true]
      exact le_trans (le_max_left _ _) (ih _)
    · simp only [hp, if_false]
      exact ih acc

/-- The final squared maximum is an upper bound for the squared distance
of every highlighted point of the scanned list. -/
theorem bcFold_max_ge (center : Point2D) :
    ∀ (l : List GridPoint) (acc : Bool × ℚ × ℚ) (p : GridPoint), p ∈ l →
      p.highlighted = true →
      center.distanceSquaredTo p.gridPosition ≤ (l.foldl (bcStep center) acc).2.2 := by
  intro l
  induction l with
  | nil => intro acc p hp; simp at hp
  | cons q l ih =>
    intro acc p hp hhp
    rw [List.foldl_cons]
    rcases List.mem_cons.mp hp with rfl | hmem
    · rw [bcStep]
      simp only [hhp, if_true]
      exact le_trans (le_max_right _ _) (bcFold_max_mono center l _)
    · exact ih _ p hmem hhp

/-- If the scan has seen a highlighted point, its final squared minimum is
either the accumulator's entry (possible only if the accumulator already
recorded one) or attained at some highlighted point of the list. -/
theorem bcFold_min_attained (center : Point2D) :
    ∀ (l : List GridPoint) (acc : Bool × ℚ × ℚ),
      (l.foldl (bcStep center) acc).1 = true →
      (acc.1 = true ∧ (l.foldl (bcStep center) acc).2.1 = acc.2.1) ∨
        ∃ p ∈ l, p.highlighted = true ∧
          (l.foldl (bcStep center) acc).2.1 = center.distanceSquaredTo p.gridPosition := by
  intro l
  induction l with
  | nil => intro acc h; exact Or.inl ⟨h, rfl⟩
  | cons q l ih =>
    intro acc
    rw [List.foldl_cons, bcStep]
    by_cases hq : q.highlighted = true
    · simp only [hq, if_true]
      by_cases hacc : acc.1 = true
      · simp only [hacc, if_true]
        intro h
        rcases ih _ h with ⟨-, heq⟩ | ⟨p, hp, hhp, heq⟩
        · simp only at heq
          rcases min_cases acc.2.1 (center.distanceSquaredTo q.gridPosition) with
            ⟨hm, -⟩ | ⟨hm, -⟩
          · exact Or.inl ⟨trivial, by rw [heq]; exact hm⟩
          · exact Or.inr ⟨q, List.mem_cons_self q l, hq, by rw [heq]; exact hm⟩
        · exact Or.inr ⟨p, List.mem_cons_of_mem q hp, hhp, heq⟩
      · simp only [hacc, if_false]
        intro h
        rcases ih _ h with ⟨-, heq⟩ | ⟨p, hp, hhp, heq⟩
        · simp only at heq
          exact Or.inr ⟨q, List.mem_cons_self q l, hq, heq⟩
        · exact Or.inr ⟨p, List.mem_cons_of_mem q hp, hhp, heq⟩
    · simp only [hq, if_false]
      intro h
      rcases ih acc h with h' | ⟨p, hp, hhp, heq⟩
      · exact Or.inl h'
      · exact Or.inr ⟨p, List.mem_cons_of_mem q hp, hhp, heq⟩

/-- The final squared maximum is either the accumulator's entry or
attained at some highlighted point of the list. -/
theorem bcFold_max_attained (center : Point2D) :
    ∀ (l : List GridPoint) (acc : Bool × ℚ × ℚ),
      (l.foldl (bcStep center) acc).2.2 = acc.2.2 ∨
        ∃ p ∈ l, p.highlighted = true ∧
          (l.foldl (bcStep center) acc).2.2 = center.distanceSquaredTo p.gridPosition := by
  intro l
  induction l with
  | nil => intro acc; exact Or.inl rfl
  | cons q l ih =>
    intro acc
    rw [List.foldl_cons, bcStep]
    by_cases hq : q.highlighted = true
    · simp only [hq, if_true]
      rcases ih _ with heq | ⟨p, hp, hhp, heq⟩
      · rcases max_cases acc.2.2 (center.distanceSquaredTo q.gridPosition) with
          ⟨hm, -⟩ | ⟨hm, -⟩
        · exact Or.inl (by rw [heq]; exact hm)
        · exact Or.inr ⟨q, List.mem_cons_self q l, hq, by rw [heq]; exact hm⟩
      · exact Or.inr ⟨p, List.mem_cons_of_mem q hp, hhp, heq⟩
    · simp only [hq, if_false]
      rcases ih acc with h' | ⟨p, hp, hhp, heq⟩
      · exact Or.inl h'
      · exact Or.inr ⟨p, List.mem_cons_of_mem q hp, hhp, heq⟩

/-- C3: calculateBoundingCircles fails exactly when no point is
highlighted; otherwise both circles share the given center, the inner
radius is the minimum Euclidean distance from the center to the
highlighted points (attained and a lower bound) and the outer radius the
maximum.  With exactly one highlighted point both radii are therefore that
point's distance. -/
theorem calculateBoundingCircles_spec : ∀ (g : Grid) (center : Point2D),
    (calculateBoundingCircles g center = none ↔
      ∀ p ∈ g.gridPointsList, p.highlighted = false) ∧
    (∀ ic oc, calculateBoundingCircles g center = some (ic, oc) →
      ic.center = center ∧ oc.center = center ∧
      (∃ p ∈ g.gridPointsList, p.highlighted = true ∧
        ic.radius = center.distanceTo p.gridPosition) ∧
      (∀ p ∈ g.gridPointsList, p.highlighted = true →
        ic.radius ≤ center.distanceTo p.gridPosition) ∧
      (∃ p ∈ g.gridPointsList, p.highlighted = true ∧
        oc.radius = center.distanceTo p.gridPosition) ∧
      (∀ p ∈ g.gridPointsList, p.highlighted = true →
        center.distanceTo p.gridPosition ≤ oc.radius)) := by
  intro g center
  constructor
  · rw [calculateBoundingCircles]
    have hfst : (bcFold g center).1 = (g.gridPointsList.any fun p => p.highlighted) := by
      rw [bcFold, bcFold_fst center g.gridPointsList (false, 0, 0)]
      simp
    constructor
    · intro hnone
      by_cases hb : (bcFold g center).1 = true
      · rw [if_pos hb] at hnone; cases hnone
      · intro p hp
        by_contra hph
        rw [Bool.not_eq_false] at hph
        have : (g.gridPointsList.any fun p => p.highlighted) = true :=
          List.any_eq_true.mpr ⟨p, hp, hph⟩
        rw [← hfst] at this
        exact hb this
    · intro hall
      have hb : (bcFold g center).1 = false := by
        rw [hfst]
        rw [List.any_eq_false]
        intro p hp
        rw [hall p hp]
        exact Bool.false_ne_true
      rw [hb]
      simp
  · intro ic oc hsome
    rw [calculateBoundingCircles] at hsome
    by_cases hb : (bcFold g center).1 = true
    · rw [if_pos hb, Option.some_inj, Prod.mk.injEq] at hsome
      obtain ⟨hic, hoc⟩ := hsome
      subst hic
      subst hoc
      refine ⟨rfl, rfl, ?_, ?_, ?_, ?_⟩
      · rcases bcFold_min_attained center g.gridPointsList (false, 0, 0) hb with
          ⟨habs, -⟩ | ⟨p, hp, hhp, heq⟩
        · cases habs
        · exact ⟨p, hp, hhp, by rw [Point2D.distanceTo, bcFold, heq]⟩
      · intro p hp hhp
        rw [Point2D.distanceTo]
        apply Real.sqrt_le_sqrt
        have := bcFold_min_le center g.gridPointsList (false, 0, 0) p hp hhp
        exact_mod_cast this
      · rcases bcFold_max_attained center g.gridPointsList (false, 0, 0) with
          heq | ⟨p, hp, hhp, heq⟩
        · -- the running maximum stayed at its initial value 0: any highlighted
          -- point (one exists) then has squared distance 0
          have hany : (g.gridPointsList.any fun p => p.highlighted) = true := by
            have hf := bcFold_fst center g.gridPointsList (false, 0, 0)
            rw [bcFold] at hb
            rw [hf] at hb
            simpa using hb
          obtain ⟨p, hp, hhp⟩ := List.any_eq_true.mp hany
          refine ⟨p, hp, hhp, ?_⟩
          have hle := bcFold_max_ge center g.gridPointsList (false, 0, 0) p hp hhp
          rw [heq] at hle
          have hge : (0 : ℚ) ≤ center.distanceSquaredTo p.gridPosition := by
            rw [Point2D.distanceSquaredTo]
            exact add_nonneg (mul_self_nonneg _) (mul_self_nonneg _)
          have hzero : center.distanceSquaredTo p.gridPosition = 0 := le_antisymm hle hge
          rw [Point2D.distanceTo, bcFold, heq, hzero]
        · exact ⟨p, hp, hhp, by rw [Point2D.distanceTo, bcFold, heq]⟩
      · intro p hp hhp
        rw [Point2D.distanceTo]
        apply Real.sqrt_le_sqrt
        have := bcFold_max_ge center g.gridPointsList (false, 0, 0) p hp hhp
        exact_mod_cast this
    · rw [if_neg hb] at hsome; cases hsome

/-- Witness for C3: the empty-flag direction evaluated on the concrete
2 x 2 grid with one highlighted point. -/
theorem calculateBoundingCircles_spec_witness :
    calculateBoundingCircles bcWitGrid ⟨0, 0⟩ = none ↔
      ∀ p ∈ bcWitGrid.gridPointsList, p.highlighted = false :=
  (calculateBoundingCircles_spec bcWitGrid ⟨0, 0⟩).1

end Problem1


namespace Problem2

/-! ## C5: the Newton loop's safety rules and the sign of its root -/

/-- The Newton loop never leaves a negative iterate behind: started at a
nonnegative x it returns a nonnegative value. -/
theorem newtonGo_nonneg (A0c A1c A2c A22 : ℚ) :
    ∀ (r : ℕ) (x y : ℚ), 0 ≤ x → 0 ≤ newtonGo A0c A1c A2c A22 r x y := by
  intro r
  induction r with
  | zero => intro x y hx; rw [newtonGo]; exact hx
  | succ r ih =>
    intro x y hx
    simp only [newtonGo]
    split_ifs with h1 h2 h3 h4 h5
    · exact le_refl 0
    · -- the relative-step break fired: the new iterate cannot be negative,
      -- because from a nonnegative x a negative x1 has |(x1-x)/x1| ≥ 1
      set x1 := x - (A0c + x * (A1c + x * (A2c + 4 * x * x))) /
        (A1c + x * (A22 + 16 * x * x)) with hx1
      by_contra hneg
      push_neg at hneg
      have habs : |x1| ≤ |x1 - x| := by
        rw [abs_of_neg hneg, abs_of_neg (show x1 - x < 0 by linarith)]
        linarith
      have hge : (1 : ℚ) ≤ |(x1 - x) / x1| := by
        rw [abs_div, le_div_iff₀ (abs_pos.mpr (ne_of_lt hneg))]
        linarith
      have := lt_of_le_of_lt hge h2
      norm_num at this
    · exact le_refl 0
    · exact ih _ _ (le_of_not_lt h4)
    · exact le_refl 0
    · exact ih _ _ (le_of_not_lt h5)

/-- C5: the loop's safety rules, stated on the loop itself, and their
consequence: (1) the root used to compute DET is never negative; (2) if
|f(x)| increased relative to the previous iteration the loop aborts with
x = 0; (3) if the updated x is negative (and no earlier break fired) the
loop stops with x = 0; (4) if the iteration cap is reached without
convergence the loop ends with x = 0. -/
theorem newton_safety :
    (∀ l : List Point, 0 ≤ root l) ∧
    (∀ A0c A1c A2c A22 : ℚ, ∀ r : ℕ, ∀ x y : ℚ,
      |A0c + x * (A1c + x * (A2c + 4 * x * x))| > |y| →
      newtonGo A0c A1c A2c A22 (r + 1) x y = 0) ∧
    (∀ A0c A1c A2c A22 : ℚ, ∀ r : ℕ, ∀ x y : ℚ,
      ¬(|A0c + x * (A1c + x * (A2c + 4 * x * x))| > |y|) →
      ¬(|((x - (A0c + x * (A1c + x * (A2c + 4 * x * x))) /
            (A1c + x * (A22 + 16 * x * x))) - x) /
          (x - (A0c + x * (A1c + x * (A2c + 4 * x * x))) /
            (A1c + x * (A22 + 16 * x * x)))| < 1e-12) →
      r ≠ 0 →
      x - (A0c + x * (A1c + x * (A2c + 4 * x * x))) /
          (A1c + x * (A22 + 16 * x * x)) < 0 →
      newtonGo A0c A1c A2c A22 (r + 1) x y = 0) ∧
    (∀ A0c A1c A2c A22 : ℚ, ∀ x y : ℚ,
      ¬(|A0c + x * (A1c + x * (A2c + 4 * x * x))| > |y|) →
      ¬(|((x - (A0c + x * (A1c + x * (A2c + 4 * x * x))) /
            (A1c + x * (A22 + 16 * x * x))) - x) /
          (x - (A0c + x * (A1c + x * (A2c + 4 * x * x))) /
            (A1c + x * (A22 + 16 * x * x)))| < 1e-12) →
      newtonGo A0c A1c A2c A22 1 x y = 0) := by
  refine ⟨?_, ?_, ?_, ?_⟩
  · intro l
    rw [root, newtonSolve]
    exact newtonGo_nonneg _ _ _ _ 20 0 1e20 (le_refl 0)
  · intro A0c A1c A2c A22 r x y h
    simp only [newtonGo]
    rw [if_pos h]
  · intro A0c A1c A2c A22 r x y h1 h2 h3 h4
    simp only [newtonGo]
    rw [if_neg h1, if_neg h2, if_neg h3, if_pos h4]
  · intro A0c A1c A2c A22 x y h1 h2
    simp only [newtonGo]
    rw [if_neg h1, if_neg h2]
    norm_num

end Problem2

namespace Problem2

/-! ## C4: exactly collinear inputs are rejected through the DET test -/

/-- On a line a*x + b*y = c, the weighted coordinate sums satisfy the same
relation scaled by the point count. -/
theorem sum_line (pts : List Point) (a b c : ℚ)
    (h : ∀ p ∈ pts, a * p.x + b * p.y = c) :
    a * sumX pts + b * sumY pts = pts.length * c := by
  rw [sumX, sumY, ← sum_map_mul_left, ← sum_map_mul_left, ← sum_map_add,
    sum_map_congr h, sum_map_const]

/-- The centroid of collinear points lies on the line. -/
theorem collinear_centroid (pts : List Point) (a b c : ℚ)
    (h : ∀ p ∈ pts, a * p.x + b * p.y = c) (hne : pts ≠ []) :
    a * centroidX pts + b * centroidY pts = c := by
  have hn : (pts.length : ℚ) ≠ 0 := by
    have := List.length_pos.mpr hne
    positivity
  rw [centroidX, centroidY]
  have hs := sum_line pts a b c h
  field_simp
  linarith

/-- Translating collinear points by their centroid yields points on the
parallel line through the origin. -/
theorem collinear_translated (pts : List Point) (a b c : ℚ)
    (h : ∀ p ∈ pts, a * p.x + b * p.y = c) (hne : pts ≠ []) :
    ∀ p ∈ translated pts, a * p.x + b * p.y = 0 := by
  intro p hp
  rw [translated] at hp
  obtain ⟨q, hq, rfl⟩ := List.mem_map.mp hp
  have hc := collinear_centroid pts a b c h hne
  have hq' := h q hq
  simp only
  linear_combination hq' - hc

/-- Moment sums of a list lying on y = k*x. -/
theorem prop_moments (l : List Point) (k : ℚ) (h : ∀ p ∈ l, p.y = k * p.x) :
    Syy l = k ^ 2 * Sxx l ∧ Sxy l = k * Sxx l ∧
      Sxz l = (1 + k ^ 2) * Sx3 l ∧ Syz l = k * (1 + k ^ 2) * Sx3 l := by
  refine ⟨?_, ?_, ?_, ?_⟩
  · rw [Syy, Sxx, ← sum_map_mul_left]
    exact sum_map_congr fun p hp => by rw [h p hp]; ring
  · rw [Sxy, Sxx, ← sum_map_mul_left]
    exact sum_map_congr fun p hp => by rw [h p hp]; ring
  · rw [Sxz, Sx3, ← sum_map_mul_left]
    exact sum_map_congr fun p hp => by rw [h p hp]; ring
  · rw [Syz, Sx3, ← sum_map_mul_left]
    exact sum_map_congr fun p hp => by rw [h p hp]; ring

/-- For points on a line through the origin, both the covariance
determinant Cov_xy and the constant coefficient A0 vanish. -/
theorem line0_cov_a0 (l : List Point) (a b : ℚ) (hab : a ≠ 0 ∨ b ≠ 0)
    (h0 : ∀ p ∈ l, a * p.x + b * p.y = 0) :
    Cov_xy l = 0 ∧ A0 l = 0 := by
  by_cases hb : b = 0
  · have ha : a ≠ 0 := by
      rcases hab with ha | hb'
      · exact ha
      · exact absurd hb hb'
    have hx : ∀ p ∈ l, p.x = 0 := by
      intro p hp
      have := h0 p hp
      rw [hb] at this
      have hax : a * p.x = 0 := by linarith
      exact (mul_eq_zero.mp hax).resolve_left ha
    have hSxx : Sxx l = 0 := by
      rw [Sxx, sum_map_congr (fun p hp => by rw [hx p hp]; ring :
        ∀ p ∈ l, p.x * p.x = (0 : ℚ)), sum_map_const]
      ring
    have hSxy : Sxy l = 0 := by
      rw [Sxy, sum_map_congr (fun p hp => by rw [hx p hp]; ring :
        ∀ p ∈ l, p.x * p.y = (0 : ℚ)), sum_map_const]
      ring
    have hSxz : Sxz l = 0 := by
      rw [Sxz, sum_map_congr (fun p hp => by rw [hx p hp]; ring :
        ∀ p ∈ l, p.x * (p.x * p.x + p.y * p.y) = (0 : ℚ)), sum_map_const]
      ring
    constructor
    · simp only [Cov_xy, Mxx, Myy, Mxy]
      rw [hSxx, hSxy]; ring
    · simp only [A0, Var_z, Cov_xy, Mz, Mxx, Myy, Mxy, Mxz, Myz, Mzz]
      rw [hSxx, hSxy, hSxz]; ring
  · have hk : ∀ p ∈ l, p.y = (-a / b) * p.x := by
      intro p hp
      have := h0 p hp
      field_simp
      linarith
    obtain ⟨h1, h2, h3, h4⟩ := prop_moments l (-a / b) hk
    constructor
    · simp only [Cov_xy, Mxx, Myy, Mxy]
      rw [h1, h2]; ring
    · simp only [A0, Var_z, Cov_xy, Mz, Mxx, Myy, Mxy, Mxz, Myz, Mzz]
      rw [h1, h2, h3, h4]; ring

/-- With a vanishing constant coefficient the Newton solve stops at its
first iteration with x = 0 (f(0) = A0 = 0 and the relative step is 0). -/
theorem newtonSolve_zero_of_A0_zero (A1c A2c A22 : ℚ) :
    newtonSolve 0 A1c A2c A22 = 0 := by
  rw [newtonSolve, show (20 : ℕ) = 19 + 1 from rfl, newtonGo]
  norm_num

/-- C4: at least three exactly collinear points make FitCircle return the
invalid circle, and the rejection happens through the determinant test:
the computed DET satisfies |DET| < 1e-10 (indeed DET = 0 exactly). -/
theorem fitCircle_collinear (pts : List Point) (h3 : 3 ≤ pts.length)
    (hcol : Collinear pts) :
    FitCircle pts = Circle.invalid ∧ |DET (translated pts)| < 1e-10 := by
  obtain ⟨a, b, c, hab, hline⟩ := hcol
  have hne : pts ≠ [] := by
    intro h
    rw [h] at h3
    simp at h3
  have h0 := collinear_translated pts a b c hline hne
  obtain ⟨hcov, ha0⟩ := line0_cov_a0 (translated pts) a b hab h0
  have hroot : root (translated pts) = 0 := by
    rw [root, ha0]
    exact newtonSolve_zero_of_A0_zero _ _ _
  have hdet : DET (translated pts) = 0 := by
    rw [DET, hroot, hcov]
    ring
  refine ⟨?_, by rw [hdet]; norm_num⟩
  rw [FitCircle, if_neg (by omega), if_pos (by rw [hdet]; norm_num)]

/-- Witness for C4: three points on the diagonal y = x. -/
theorem fitCircle_collinear_witness :
    FitCircle [⟨0, 0⟩, ⟨1, 1⟩, ⟨2, 2⟩] = Circle.invalid ∧
      |DET (translated [⟨0, 0⟩, ⟨1, 1⟩, ⟨2, 2⟩])| < 1e-10 :=
  fitCircle_collinear [⟨0, 0⟩, ⟨1, 1⟩, ⟨2, 2⟩] (by norm_num)
    ⟨1, -1, 0, Or.inl one_ne_zero, by
      intro p hp
      fin_cases hp <;> norm_num⟩

end Problem2

namespace ExtraCredit

/-! ## C6: too few points or collinear points are rejected -/

/-- C6: FitEllipse returns the invalid shape on fewer than 5 points, and
whenever the unnormalized variance/covariance determinant is below 1e-6
(in particular on collinear points, where it is exactly 0). -/
theorem fitEllipse_reject (pts : List Point) :
    (pts.length < 5 → FitEllipse pts = EllipseShape.invalid) ∧
    (|detVar pts| < 1e-6 → FitEllipse pts = EllipseShape.invalid) := by
  constructor
  · intro h
    rw [FitEllipse, if_pos h]
  · intro h
    by_cases h5 : pts.length < 5
    · rw [FitEllipse, if_pos h5]
    · rw [FitEllipse, if_neg h5, if_pos h]

/-- Witness for C6: four points (too few), and five exactly collinear
points on the diagonal. -/
theorem fitEllipse_reject_witness :
    FitEllipse [⟨0, 0⟩, ⟨1, 1⟩, ⟨2, 2⟩, ⟨3, 3⟩] = EllipseShape.invalid ∧
      FitEllipse [⟨0, 0⟩, ⟨1, 1⟩, ⟨2, 2⟩, ⟨3, 3⟩, ⟨4, 4⟩] = EllipseShape.invalid :=
  ⟨(fitEllipse_reject _).1 (by norm_num),
   (fitEllipse_reject _).2 (by norm_num [detVar, var_x, var_y, covar, meanX, meanY])⟩

/-! ## C10: the det_S3 guard, and why it is subsumed by the 1e-6 guard -/

/-- The determinant of the scatter matrix S3 equals n times the
unnormalized variance/covariance determinant (an exact algebraic
identity), so the 1e-10 guard can only fire on inputs the 1e-6 guard
already rejected. -/
theorem detS3_eq (pts : List Point) (hn : (pts.length : ℚ) ≠ 0) :
    detS3 pts = (pts.length : ℚ) * detVar pts := by
  have hvx : var_x pts = Sxx pts - Sx pts * Sx pts / pts.length := by
    rw [var_x, sum_map_congr (fun p _ => by ring :
      ∀ p ∈ pts, (p.x - meanX pts) * (p.x - meanX pts) =
        p.x * p.x - 2 * meanX pts * p.x + meanX pts * meanX pts),
      sum_map_add, sum_map_sub, sum_map_mul_left, sum_map_const, meanX, Sxx, Sx]
    field_simp
    ring
  have hvy : var_y pts = Syy pts - Sy pts * Sy pts / pts.length := by
    rw [var_y, sum_map_congr (fun p _ => by ring :
      ∀ p ∈ pts, (p.y - meanY pts) * (p.y - meanY pts) =
        p.y * p.y - 2 * meanY pts * p.y + meanY pts * meanY pts),
      sum_map_add, sum_map_sub, sum_map_mul_left, sum_map_const, meanY, Syy, Sy]
    field_simp
    ring
  have hcov : covar pts = Sxy pts - Sx pts * Sy pts / pts.length := by
    rw [covar, sum_map_congr (fun p _ => by ring :
      ∀ p ∈ pts, (p.x - meanX pts) * (p.y - meanY pts) =
        p.x * p.y - meanX pts * p.y - meanY pts * p.x + meanX pts * meanY pts),
      sum_map_add, sum_map_sub, sum_map_sub, sum_map_mul_left, sum_map_mul_left,
      sum_map_const, meanX, meanY, Sxy, Sx, Sy]
    field_simp
    ring
  rw [detS3, detVar, hvx, hvy, hcov]
  field_simp
  ring

/-- C10: the extra rejection the spec does not list — a point set of size
at least 5 that passes the 1e-6 collinearity guard but has |det S3| below
1e-10 is rejected before any moment-based parameter is computed — together
with the identity det S3 = n * (var_x*var_y - covar^2), which shows the
guard's hypotheses cannot be met (such a set would need
|det S3| ≥ 5e-6). -/
theorem fitEllipse_S3_guard :
    (∀ pts : List Point, 5 ≤ pts.length → ¬(|detVar pts| < 1e-6) →
      |detS3 pts| < 1e-10 → FitEllipse pts = EllipseShape.invalid) ∧
    (∀ pts : List Point, pts ≠ [] → detS3 pts = (pts.length : ℚ) * detVar pts) := by
  constructor
  · intro pts h5 hdv hs3
    rw [FitEllipse, if_neg (by omega), if_neg hdv, if_pos hs3]
  · intro pts hne
    apply detS3_eq
    have := List.length_pos.mpr hne
    positivity

end ExtraCredit

namespace ExtraCredit

/-! ## C7: a valid fit always has semi-major ≥ semi-minor > 0 -/

/-- C7: whenever FitEllipse returns a shape with valid = true, its axes
satisfy a ≥ b > 0 (the swap branch orders them, the final filter rejects
nonpositive axes). -/
theorem fitEllipse_valid_axes (pts : List Point)
    (h : (FitEllipse pts).valid = true) :
    0 < (FitEllipse pts).b ∧ (FitEllipse pts).b ≤ (FitEllipse pts).a := by
  simp only [FitEllipse] at h ⊢
  split_ifs at h ⊢ with h1 h2 h3 hswap hv1 hv2
  · simp [EllipseShape.invalid] at h
  · simp [EllipseShape.invalid] at h
  · simp [EllipseShape.invalid] at h
  · simp [EllipseShape.invalid] at h
  · push_neg at hv1
    exact ⟨hv1.2.1, le_of_lt hswap⟩
  · simp [EllipseShape.invalid] at h
  · push_neg at hv2
    exact ⟨hv2.2.1, not_lt.mp hswap⟩

end ExtraCredit

namespace ExtraCredit

/-- The demo input passes every guard: its moments are mxx = 8/5,
myy = 2/5, mxy = 0, so theta = 0 and the fitted axes are 2*sqrt(8/5) and
2*sqrt(2/5); the validation filter accepts them. -/
theorem fitEllipse_demo_valid : (FitEllipse demoPts).valid = true := by
  have hlen : ¬(demoPts.length < 5) := by norm_num [demoPts]
  have hdv : ¬(|detVar demoPts| < 1e-6) := by
    norm_num [detVar, var_x, var_y, covar, meanX, meanY, demoPts]
  have hds : ¬(|detS3 demoPts| < 1e-10) := by
    norm_num [detS3, Sxx, Syy, Sxy, Sx, Sy, demoPts]
  have hmxx : mxx demoPts = 8 / 5 := by
    norm_num [mxx, var_x, meanX, demoPts]
  have hmyy : myy demoPts = 2 / 5 := by
    norm_num [myy, var_y, meanY, demoPts]
  have hmxy : mxy demoPts = 0 := by
    norm_num [mxy, covar, meanX, meanY, demoPts]
  have hth : theta demoPts = 0 := by
    rw [theta, hmxy, hmxx, hmyy]
    push_cast
    norm_num [atan2]
  have hv1 : var1 demoPts = 8 / 5 := by
    rw [var1, hth, hmxx, hmyy, hmxy]
    norm_num
  have hv2 : var2 demoPts = 2 / 5 := by
    rw [var2, hth, hmxx, hmyy, hmxy]
    norm_num
  have hs1 : Real.sqrt |(8 / 5 : ℝ)| ≤ 2 := by
    rw [abs_of_pos (by norm_num)]
    exact Real.sqrt_le_iff.mpr ⟨by norm_num, by norm_num⟩
  have hs2 : Real.sqrt |(2 / 5 : ℝ)| ≤ Real.sqrt |(8 / 5 : ℝ)| := by
    rw [abs_of_pos (by norm_num), abs_of_pos (by norm_num)]
    exact Real.sqrt_le_sqrt (by norm_num)
  have hp1 : 0 < Real.sqrt |(8 / 5 : ℝ)| := by
    rw [abs_of_pos (by norm_num)]
    exact Real.sqrt_pos.mpr (by norm_num)
  have hp2 : 0 < Real.sqrt |(2 / 5 : ℝ)| := by
    rw [abs_of_pos (by norm_num)]
    exact Real.sqrt_pos.mpr (by norm_num)
  have hswap : ¬(2 * Real.sqrt |(2 / 5 : ℝ)| > 2 * Real.sqrt |(8 / 5 : ℝ)|) := by
    intro hgt
    have := mul_le_mul_of_nonneg_left hs2 (by norm_num : (0 : ℝ) ≤ 2)
    linarith
  rw [FitEllipse, if_neg hlen, if_neg hdv, if_neg hds]
  simp only [hv1, hv2]
  rw [if_neg hswap, if_neg hswap, if_neg hswap]
  rw [if_neg (by
    intro hbad
    rcases hbad with hb | hb | hb | hb
    · linarith
    · linarith
    · linarith
    · linarith)]

end ExtraCredit

namespace ExtraCredit

/-- Witness for C7: the demo input's valid fit has positive ordered axes. -/
theorem fitEllipse_valid_axes_witness :
    0 < (FitEllipse demoPts).b ∧ (FitEllipse demoPts).b ≤ (FitEllipse demoPts).a :=
  fitEllipse_valid_axes demoPts fitEllipse_demo_valid

end ExtraCredit

namespace Problem2

/-- Witness for C5: the abort-on-increase rule fired at a concrete state
(f(0) = 1 while the previous |f| was 0). -/
theorem newton_safety_witness : newtonGo 1 1 1 2 (0 + 1) 0 0 = 0 :=
  newton_safety.2.1 1 1 1 2 0 0 0 (by norm_num)

end Problem2
